import Mathlib

/-!
# gopherjs-runtime: output capture, archive cache and compile/run pipeline

A shallow embedding of `src/main.go` and `src/playground/main.go`.

* Go strings are byte sequences (`GoString`).
* A `Line` (`map[string]string` that is only ever built with the two keys
  `"type"` and `"content"`) is a two-field record.
* Global variables (`output`, `packages`, `importContext.Packages`) are passed
  and returned explicitly.
* Calls that leave the repository (the Go parser, the GopherJS compiler, the
  HTTP transport, the JavaScript `eval`) are fields of an environment record;
  every such call is recorded in an event trace so that "is never attempted"
  is a statement about the trace.
* The external calls `eval`, `compiler.ImportDependencies` and
  `compiler.WriteProgramCode` can end in a panic (a JavaScript error, a nil
  main package, an empty package list); a nil pointer dereference written in
  the source (`mainPkg.Name`) is a panic of the model.
-/

namespace GopherJSRuntime

/-! ## Strings and output lines -/

/-- A Go `string`: an immutable sequence of bytes. -/
abbrev GoString := List UInt8

/-- The bytes (UTF-8) of a string literal of the source. -/
def str (s : String) : GoString := s.toUTF8.data.toList

/-- The type `Line` of `playground/main.go` (`map[string]string`); every
`Line` of the program is built as `Line{"type": t, "content": c}`. -/
structure Line where
  type : GoString
  content : GoString
  deriving DecidableEq, Repr

/-- The byte `'\n'`. -/
def newline : UInt8 := 10

namespace strings

/-- Go's `strings.Split(s, sep)` for a one-byte separator `sep`: the
substrings of `s` between the occurrences of `sep`; `Count(s, sep) + 1`
substrings, so one empty substring for the empty string. -/
def Split : GoString → UInt8 → List GoString
  | [], _ => [[]]
  | c :: rest, sep =>
    if c = sep then [] :: Split rest sep
    else
      match Split rest sep with
      | [] => [[c]]
      | seg :: segs => (c :: seg) :: segs

end strings

/-- The statement `output[len(output)-1]["content"] += s`. -/
def appendToLastContent : List Line → GoString → List Line
  | [], _ => []
  | [l], s => [{ l with content := l.content ++ s }]
  | l :: l2 :: ls, s => l :: appendToLastContent (l2 :: ls) s

/-- The hook `goPrintToConsole` of `setupEnvironment`
(`playground/main.go`, lines 142-151), as a function from the global
`output` before the call and the written bytes to `output` after it. -/
def goPrintToConsole (output : List Line) (b : GoString) : List Line :=
  let lines := strings.Split b newline
  let output1 :=
    match output.getLast? with
    | none => output ++ [⟨str "out", str ""⟩]
    | some last =>
      if last.type ≠ str "out" then output ++ [⟨str "out", str ""⟩] else output
  let output2 := appendToLastContent output1 (lines.headD [])
  output2 ++ (lines.drop 1).map (fun line => ⟨str "out", line⟩)

/-- The hook `goPanicHandler` of `setupEnvironment`
(`playground/main.go`, lines 152-154). -/
def goPanicHandler (output : List Line) (msg : GoString) : List Line :=
  output ++ [⟨str "err", str "panic: " ++ msg⟩]

/-- The log after the chunks `ws` were written in order to `goPrintToConsole`,
starting from `output`. -/
def writeAll (output : List Line) (ws : List GoString) : List Line :=
  ws.foldl goPrintToConsole output

/-- One `"out"` entry per segment. -/
def outEntries (segs : List GoString) : List Line :=
  segs.map (fun seg => ⟨str "out", seg⟩)

/-! ## Values of the external packages -/

/-- A `*js.Error`: a JavaScript exception, with its `message` property. -/
structure JSError where
  message : GoString
  deriving DecidableEq, Repr

/-- A Go `error` value, by its dynamic type. The entries of the two list
types are kept as the text their `Error()` method returns. -/
inductive GoError where
  /-- A `scanner.ErrorList` (package `go/scanner`). -/
  | scannerErrorList (list : List GoString)
  /-- A `compiler.ErrorList` (package `gopherjs/compiler`). -/
  | compilerErrorList (list : List GoString)
  /-- A `*js.Error`. -/
  | jsError (err : JSError)
  /-- An error of any other type, with the text of its `Error()` method. -/
  | other (text : GoString)
  deriving DecidableEq, Repr

/-- The value a Go panic carries (what `recover()` returns). -/
inductive PanicValue where
  /-- A JavaScript exception: "JS errors are converted into Go panics". -/
  | jsError (err : JSError)
  /-- A `runtime.Error`, with its text after `"runtime error: "`. -/
  | runtimeError (text : GoString)
  /-- A value of any other type, as `%v` prints it. -/
  | value (printed : GoString)
  deriving DecidableEq, Repr

/-- How a call ends: it returns a value or it panics. -/
inductive Outcome (α : Type) where
  | returned (v : α)
  | panicked (p : PanicValue)
  deriving DecidableEq, Repr

/-- The panic of a nil pointer dereference. -/
def nilDereference : PanicValue :=
  .runtimeError (str "invalid memory address or nil pointer dereference")

/-- The method `(*js.Error).Error()`. -/
def JSError.Error (err : JSError) : GoString :=
  str "JavaScript error: " ++ err.message

/-- The text of `fmt.Sprintf("%s (and %d more errors)", first, n)`. -/
def andMoreErrors (first : GoString) (n : Nat) : GoString :=
  first ++ str " (and " ++ str (toString n) ++ str " more errors)"

/-- The method `Error()` of an `error` value. -/
def GoError.Error : GoError → GoString
  | .scannerErrorList [] => str "no errors"
  | .scannerErrorList [e] => e
  | .scannerErrorList (e :: e2 :: es) => andMoreErrors e (e2 :: es).length
  | .compilerErrorList [] => str "<no errors>"
  | .compilerErrorList (e :: es) => andMoreErrors e es.length
  | .jsError err => err.Error
  | .other text => text

/-- What the verb `%v` of package `fmt` prints for a recovered value. -/
def fmtV : PanicValue → GoString
  | .jsError err => err.Error
  | .runtimeError text => str "runtime error: " ++ text
  | .value printed => printed

/-- A `*compiler.Archive` (a precompiled package), as far as the program
reads it. -/
structure Archive where
  ImportPath : GoString
  Name : GoString
  deriving DecidableEq, Repr

/-- A `types.Package` of the type registry; the registry
(`map[string]*types.Package`) holds pointers, `none` being the nil pointer. -/
structure TypesPackage where
  path : GoString
  deriving DecidableEq, Repr

/-- A `*ast.File`. -/
structure File where
  Name : GoString
  deriving DecidableEq, Repr

/-- A Go `map[string]V`, as the list of its key/value pairs. -/
abbrev GoMap (V : Type) := List (GoString × V)

/-- The lookup `v, found := m[key]`. -/
def GoMap.get? {V : Type} (m : GoMap V) (key : GoString) : Option V :=
  match m with
  | [] => none
  | (k, v) :: rest => if k = key then some v else GoMap.get? rest key

/-- The assignment `m[key] = v`. -/
def GoMap.set {V : Type} (m : GoMap V) (key : GoString) (v : V) : GoMap V :=
  match m with
  | [] => [(key, v)]
  | (k, w) :: rest => if k = key then (k, v) :: rest else (k, w) :: GoMap.set rest key v

/-- An `*http.Response`: reading its body to the end gives the bytes or fails. -/
structure Response where
  Body : Except GoError GoString

/-- A call that leaves the program, in the order the calls are made. -/
inductive Event where
  | httpGet (url : GoString)
  | readAll
  | bodyClose
  | readArchive (name : GoString)
  | registerTypes (importPath : GoString)
  | println (text : GoString)
  | eval (code : GoString)
  | consoleError (text : GoString)
  | parseFile (src : GoString)
  | compile (file : Option File)
  | importDependencies (mainPkg : Option Archive)
  | writeProgramCode (pkgs : List Archive)
  | setCheckForDeadlock
  | callback (err : Option GoError) (code : GoString)
  deriving DecidableEq, Repr

/-- Is the event a fetch (`http.Get`)? -/
def Event.isFetch : Event → Bool
  | .httpGet _ => true
  | _ => false

/-- The number of fetches of a trace. -/
def fetchCount (events : List Event) : Nat :=
  events.countP Event.isFetch

/-- The external collaborators: every field is a function of another
package, called by the program and not part of it. -/
structure Env where
  /-- The function `http.Get(url)`. -/
  httpGet : GoString → Except GoError Response
  /-- The function `compiler.ReadArchive(name, reader over data)`. -/
  ReadArchive : GoString → GoString → Except GoError Archive
  /-- The method `pkg.RegisterTypes(packages)`: the registry after the call
  and the error it returns. -/
  RegisterTypes : Archive → GoMap (Option TypesPackage)
    → GoMap (Option TypesPackage) × Option GoError
  /-- The call `js.Global.Call("eval", code)`: `none` when the evaluation
  returns, the panic when it raises. -/
  eval : GoString → Option PanicValue
  /-- The function `json.Marshal(code)`: the bytes and the error. -/
  jsonMarshal : GoString → GoString × Option GoError
  /-- The function `parser.ParseFile(fileSet, "prog.go", src, ParseComments)`. -/
  ParseFile : GoString → Option File × Option GoError
  /-- The function `compiler.Compile("main", {file}, fileSet, importContext, false)`. -/
  Compile : Option File → Option Archive × Option GoError
  /-- The function `compiler.ImportDependencies(mainPkg, importContext.Import)`:
  the pair `([]*Archive, error)` it returns (a nil slice is the empty list),
  or the panic it ends with. -/
  ImportDependencies : Option Archive → Outcome (List Archive × Option GoError)
  /-- The function `compiler.WriteProgramCode(pkgs, filter, goVersion)`: what
  it writes through the filter into the buffer, or the panic it ends with. -/
  WriteProgramCode : List Archive → GoString → Outcome GoString
  /-- The function `runtime.Version()`. -/
  runtimeVersion : GoString

/-! ## The import context -/

/-- The two maps of an import context: the Archive Store (`archives` in
`main.go`, the global `packages` in `playground/main.go`) and the type
registry (`importContext.Packages`). -/
structure ImportState where
  archives : GoMap Archive
  Packages : GoMap (Option TypesPackage)
  deriving DecidableEq, Repr

/-- What a call of `Import` leaves behind: the maps, the external calls it
made, and how it ended (the pair `(*Archive, error)` it returned). -/
structure ImportResult where
  state : ImportState
  events : List Event
  outcome : Outcome (Option Archive × Option GoError)
  deriving DecidableEq, Repr

/-- The URL of `main.go`, line 35. -/
def newImportContext.url (path : GoString) : GoString :=
  str "https://cdn.jsdelivr.net/gh/naorzr/gopherjs-runtime@1.18.0-beta3/pkg/" ++ path
    ++ str ".a.js"

/-- The closure `Import` of `newImportContext` (`main.go`, lines 25-58). -/
def newImportContext.Import (env : Env) (s : ImportState) (path : GoString) : ImportResult :=
  match s.archives.get? path with
  | some pkg => ⟨s, [], .returned (some pkg, none)⟩
  | none =>
    let url := newImportContext.url path
    match env.httpGet url with
    | .error err => ⟨s, [.httpGet url], .returned (none, some err)⟩
    | .ok resp =>
      match resp.Body with
      | .error err => ⟨s, [.httpGet url, .readAll, .bodyClose], .returned (none, some err)⟩
      | .ok respData =>
        match env.ReadArchive (path ++ str ".a") respData with
        | .error err =>
          ⟨s, [.httpGet url, .readAll, .readArchive (path ++ str ".a"), .bodyClose],
            .returned (none, some err)⟩
        | .ok pkg =>
          let archives := s.archives.set path pkg
          match env.RegisterTypes pkg s.Packages with
          | (packages, some err) =>
            ⟨⟨archives, packages⟩,
              [.httpGet url, .readAll, .readArchive (path ++ str ".a"),
                .registerTypes pkg.ImportPath, .bodyClose],
              .returned (none, some err)⟩
          | (packages, none) =>
            ⟨⟨archives, packages⟩,
              [.httpGet url, .readAll, .readArchive (path ++ str ".a"),
                .registerTypes pkg.ImportPath, .bodyClose],
              .returned (some pkg, none)⟩

/-- The URL of `playground/main.go`, line 40. -/
def main.url (path : GoString) : GoString :=
  str "https://cdn.jsdelivr.net/gh/naorzr/gopherjs-runtime@master/playground/pkg/" ++ path
    ++ str ".a.js"

/-- The JavaScript evaluated at `playground/main.go`, line 63. -/
def main.registerErrorScript (path : GoString) : GoString :=
  str "console.error('error registering types package: " ++ path ++ str "')"

/-- The closure `importContext.Import` of `main` (`playground/main.go`,
lines 32-68). -/
def main.Import (env : Env) (s : ImportState) (path : GoString) : ImportResult :=
  match s.archives.get? path with
  | some pkg => ⟨s, [], .returned (some pkg, none)⟩
  | none =>
    let url := main.url path
    match env.httpGet url with
    | .error err => ⟨s, [.httpGet url], .returned (none, some err)⟩
    | .ok resp =>
      match resp.Body with
      | .error err => ⟨s, [.httpGet url, .readAll, .bodyClose], .returned (none, some err)⟩
      | .ok respData =>
        match env.ReadArchive (path ++ str ".a") respData with
        | .error err =>
          ⟨s, [.httpGet url, .readAll, .readArchive (path ++ str ".a"), .bodyClose],
            .returned (none, some err)⟩
        | .ok pkg =>
          let archives := s.archives.set path pkg
          match env.RegisterTypes pkg s.Packages with
          | (packages, some err) =>
            match env.eval (main.registerErrorScript path) with
            | some p =>
              ⟨⟨archives, packages⟩,
                [.httpGet url, .readAll, .readArchive (path ++ str ".a"),
                  .registerTypes pkg.ImportPath, .eval (main.registerErrorScript path),
                  .bodyClose],
                .panicked p⟩
            | none =>
              ⟨⟨archives, packages⟩,
                [.httpGet url, .readAll, .readArchive (path ++ str ".a"),
                  .registerTypes pkg.ImportPath, .eval (main.registerErrorScript path),
                  .bodyClose],
                .returned (none, some err)⟩
          | (packages, none) =>
            ⟨⟨archives, packages⟩,
              [.httpGet url, .readAll, .readArchive (path ++ str ".a"),
                .registerTypes pkg.ImportPath, .bodyClose],
              .returned (some pkg, none)⟩

/-! ## The compile/run pipeline -/

/-- The `interface{}` that `runCode` returns: `nil`, a `[]Line` or a `string`. -/
inductive Value where
  | nil
  | lines (list : List Line)
  | string (s : GoString)
  deriving DecidableEq, Repr

/-- The external calls a run of `runCode` made and how it ended. -/
structure RunResult where
  events : List Event
  outcome : Outcome Value
  deriving DecidableEq, Repr

/-- The loop `for _, entry := range list { outputErr = append(outputErr,
Line{"type": "err", "content": entry.Error()}) }`. -/
def errLines (list : List GoString) : List Line :=
  list.map (fun entry => ⟨str "err", entry⟩)

/-- The JavaScript evaluated at `playground/main.go`, line 98. -/
def runCode.logScript (escaped : GoString) : GoString :=
  str "console.log('code: " ++ escaped ++ str "')"

/-- The buffer `jsCode` of `runCode` after line 134, `written` being what
`WriteProgramCode` wrote into it at line 133. -/
def runCode.jsCode (written : GoString) : GoString :=
  str "try\x7b\n" ++ written
    ++ str "\x7d catch (err) \x7b\nconsole.error(err.message);\n\x7d\n"

/-- Lines 129-138 of `runCode`: the dependencies, the code generation and
the evaluation, after the external calls `before`. The error of
`ImportDependencies` is assigned to `_`. -/
def runCode.generate (env : Env) (before : List Event) (mainPkg : Option Archive) :
    RunResult :=
  match env.ImportDependencies mainPkg with
  | .panicked p => ⟨before ++ [.importDependencies mainPkg], .panicked p⟩
  | .returned (allPkgs, _) =>
    match env.WriteProgramCode allPkgs env.runtimeVersion with
    | .panicked p =>
      ⟨before ++ [.importDependencies mainPkg, .writeProgramCode allPkgs], .panicked p⟩
    | .returned written =>
      let jsCode := runCode.jsCode written
      match env.eval jsCode with
      | some p =>
        ⟨before ++ [.importDependencies mainPkg, .writeProgramCode allPkgs,
            .setCheckForDeadlock, .eval jsCode],
          .panicked p⟩
      | none =>
        ⟨before ++ [.importDependencies mainPkg, .writeProgramCode allPkgs,
            .setCheckForDeadlock, .eval jsCode],
          .returned (.string jsCode)⟩

/-- The function `runCode` of `playground/main.go` (lines 89-139);
`arguments` holds the `String()` of each JavaScript argument. -/
def runCode (env : Env) (arguments : List GoString) : RunResult :=
  match arguments with
  | [] => ⟨[], .panicked (.runtimeError (str "index out of range [0] with length 0"))⟩
  | code :: _ =>
    match env.jsonMarshal code with
    | (_, some err) =>
      ⟨[.println (str "Error during marshalling: " ++ err.Error)], .returned .nil⟩
    | (escaped, none) =>
      match env.eval (runCode.logScript escaped) with
      | some p => ⟨[.eval (runCode.logScript escaped)], .panicked p⟩
      | none =>
        match env.ParseFile code with
        | (_, some (.scannerErrorList list)) =>
          ⟨[.eval (runCode.logScript escaped), .parseFile code,
              .consoleError (str "error parsing package: main")],
            .returned (.lines (errLines list))⟩
        | (_, some err) =>
          ⟨[.eval (runCode.logScript escaped), .parseFile code,
              .consoleError (str "error parsing package2: main")],
            .returned (.string err.Error)⟩
        | (file, none) =>
          match env.Compile file with
          | (mainPkg, some (.compilerErrorList list)) =>
            match mainPkg with
            | none =>
              ⟨[.eval (runCode.logScript escaped), .parseFile code, .compile file],
                .panicked nilDereference⟩
            | some pkg =>
              ⟨[.eval (runCode.logScript escaped), .parseFile code, .compile file,
                  .consoleError (str "error compiling package: " ++ pkg.Name)],
                .returned (.lines (errLines list))⟩
          | (mainPkg, some err) =>
            match mainPkg with
            | none =>
              ⟨[.eval (runCode.logScript escaped), .parseFile code, .compile file],
                .panicked nilDereference⟩
            | some pkg =>
              ⟨[.eval (runCode.logScript escaped), .parseFile code, .compile file,
                  .consoleError (str "error compiling package2: " ++ pkg.Name)],
                .returned (.string err.Error)⟩
          | (mainPkg, none) =>
            runCode.generate env
              [.eval (runCode.logScript escaped), .parseFile code, .compile file] mainPkg

/-- The calls of `callback(err, "")` guarded by `if err != nil`. -/
def callbackIfError : Option GoError → List Event
  | some err => [.callback (some err) (str "")]
  | none => []

/-- The external calls a goroutine made and how it ended. -/
structure GoroutineResult where
  events : List Event
  outcome : Outcome Unit
  deriving DecidableEq, Repr

/-- Lines 87-91 of `(*Playground).Compile`: the dependencies, the code
generation and the last call of `callback`. The error of
`ImportDependencies` is assigned to `_`. -/
def Playground.Compile.generate (env : Env) (mainPkg : Option Archive) : GoroutineResult :=
  match env.ImportDependencies mainPkg with
  | .panicked p => ⟨[.importDependencies mainPkg], .panicked p⟩
  | .returned (allPkgs, _) =>
    match env.WriteProgramCode allPkgs env.runtimeVersion with
    | .panicked p => ⟨[.importDependencies mainPkg, .writeProgramCode allPkgs], .panicked p⟩
    | .returned jsCode =>
      ⟨[.importDependencies mainPkg, .writeProgramCode allPkgs, .callback none jsCode],
        .returned ()⟩

/-- The body of the goroutine of `(*Playground).Compile` (`main.go`, lines
73-93): the external calls it makes, the calls of `callback` among them, and
how it ends. Neither `if err != nil` returns. -/
def Playground.Compile (env : Env) (code : GoString) : GoroutineResult :=
  let parsed := env.ParseFile code
  let compiled := env.Compile parsed.1
  let generated := Playground.Compile.generate env compiled.1
  ⟨[.parseFile code] ++ callbackIfError parsed.2
      ++ [.compile parsed.1] ++ callbackIfError compiled.2
      ++ generated.events,
    generated.outcome⟩

/-- The assignment `returnedError = v` to the named result: the value it
held is lost. -/
def assignReturnedError (_held : Option GoError) (v : Option GoError) : Option GoError := v

/-- The deferred function of `(*Playground).Run` (`main.go`, lines 99-113)
for a recovered value `e` that is not nil: the value of `returnedError` when
it ends. The `if` of line 107 assigns and does not return, so line 112 runs
after it. -/
def Playground.Run.deferred (e : PanicValue) : Option GoError :=
  let returnedError : Option GoError := none
  let returnedError : Option GoError :=
    match e with
    | .jsError err => assignReturnedError returnedError (some (.jsError err))
    | _ => returnedError
  assignReturnedError returnedError (some (.other (str "compiled code paniced: " ++ fmtV e)))

/-- The method `(*Playground).Run` of `main.go` (lines 98-117): the error
it returns. -/
def Playground.Run (env : Env) (compiled : GoString) : Option GoError :=
  match env.eval compiled with
  | none => none
  | some e => Playground.Run.deferred e

/-- The number of calls of `callback` in a trace. -/
def callbackCount (events : List Event) : Nat :=
  events.countP (fun ev => match ev with | .callback _ _ => true | _ => false)

/-- Does the trace hold a call of the compiler, the dependency resolution,
the code generation or an evaluation of generated code? -/
def Event.isPipelineStep : Event → Bool
  | .compile _ => true
  | .importDependencies _ => true
  | .writeProgramCode _ => true
  | .setCheckForDeadlock => true
  | _ => false

/-! ## Sample environments -/

/-- The panic of `pkgs[len(pkgs)-1]` for an empty `pkgs`. -/
def indexOutOfRange : PanicValue :=
  .runtimeError (str "index out of range [-1]")

/-- An environment in which every fetch, parse and compilation succeeds. Its
`jsonMarshal` puts the text between double quotes, which is what
`json.Marshal` gives for a text without a character that JSON escapes (the
apostrophe is not one). Its `ImportDependencies` dereferences the main
package and its `WriteProgramCode` takes the last package of the list, as
the functions of the compiler do: they panic on nil. -/
def sampleEnv : Env where
  httpGet := fun _ => .ok ⟨.ok (str "archive bytes")⟩
  ReadArchive := fun name _ => .ok ⟨name.take (name.length - 2), str "bar"⟩
  RegisterTypes := fun pkg packages =>
    (GoMap.set packages pkg.ImportPath (some ⟨pkg.ImportPath⟩), none)
  eval := fun _ => none
  jsonMarshal := fun code => (str "\"" ++ code ++ str "\"", none)
  ParseFile := fun _ => (some ⟨str "main"⟩, none)
  Compile := fun _ => (some ⟨str "main", str "main"⟩, none)
  ImportDependencies := fun mainPkg =>
    match mainPkg with
    | none => .panicked nilDereference
    | some pkg => .returned ([⟨str "runtime", str "runtime"⟩, pkg], none)
  WriteProgramCode := fun pkgs _ =>
    match pkgs with
    | [] => .panicked indexOutOfRange
    | _ :: _ => .returned (str "$packages = \x7b\x7d;")
  runtimeVersion := str "go1.18"

/-- The registration of types fails: `RegisterTypes` assigns the nil package
it got to `packages[pkg.ImportPath]` and returns the error. -/
def badExportDataEnv : Env :=
  { sampleEnv with
    RegisterTypes := fun pkg packages =>
      (GoMap.set packages pkg.ImportPath none, some (.other (str "unexpected export data"))) }

/-- The network is down. -/
def offlineEnv : Env :=
  { sampleEnv with httpGet := fun _ => .error (.other (str "net/http: fetch() failed")) }

/-- The source text `'` fails to parse with one syntax error, and the
JavaScript engine rejects the script of line 98 built from it. -/
def quoteEnv : Env :=
  { sampleEnv with
    eval := fun code =>
      if code = str "console.log('code: \"'\"')" then
        some (.jsError ⟨str "Invalid or unexpected token"⟩)
      else none
    ParseFile := fun _ =>
      (some ⟨str ""⟩, some (.scannerErrorList [str "prog.go:1:1: rune literal not terminated"])) }

/-- The compiler reports one error and returns no package. -/
def typeErrorEnv : Env :=
  { sampleEnv with
    Compile := fun _ => (none, some (.compilerErrorList [str "prog.go:2:15: undeclared name: x"])) }

/-- The archive of the package `"runtime"` cannot be fetched:
`ImportDependencies` returns `(nil, err)`. -/
def missingDependencyEnv : Env :=
  { sampleEnv with
    ImportDependencies := fun _ =>
      .returned ([], some (.other (str "runtime: net/http: fetch() failed"))) }

/-- The source text does not parse; the compiler accepts the partial file. -/
def parseErrorEnv : Env :=
  { sampleEnv with
    ParseFile := fun _ =>
      (some ⟨str ""⟩, some (.scannerErrorList [str "prog.go:1:1: expected 'package', found x"])) }

/-- The evaluated code throws `new Error("boom")`. -/
def throwingEnv : Env :=
  { sampleEnv with eval := fun _ => some (.jsError ⟨str "boom"⟩) }

/-! ## Auxiliary definitions of the proofs -/

/-- Gluing two segment lists: the last segment of the first list and the
first segment of the second are one segment. -/
def glue : List GoString → List GoString → List GoString
  | [], ys => ys
  | [x], [] => [x]
  | [x], y :: ys => (x ++ y) :: ys
  | x :: x2 :: xs, ys => x :: glue (x2 :: xs) ys

/-- The fetch of `url` fails with `err`: `http.Get` returns the error, or it
returns a response whose body cannot be read to the end. -/
def FetchFails (env : Env) (url : GoString) (err : GoError) : Prop :=
  env.httpGet url = .error err ∨
    ∃ resp, env.httpGet url = .ok resp ∧ resp.Body = .error err

/-! ## Output capture: lemmas -/

theorem str_empty : str "" = [] := by decide

theorem strings.Split_ne_nil (s : GoString) (sep : UInt8) : strings.Split s sep ≠ [] := by
  induction s with
  | nil => simp [strings.Split]
  | cons c rest ih =>
    unfold strings.Split
    split
    · simp
    · split <;> simp

theorem glue_cons_cons (x x2 : GoString) (xs ys : List GoString) :
    glue (x :: x2 :: xs) ys = x :: glue (x2 :: xs) ys := by
  cases ys <;> rfl

theorem glue_cons_of_ne_nil (x : GoString) {xs : List GoString} (h : xs ≠ [])
    (ys : List GoString) : glue (x :: xs) ys = x :: glue xs ys := by
  cases xs with
  | nil => exact absurd rfl h
  | cons x2 xs => exact glue_cons_cons x x2 xs ys

theorem glue_head_cons (c : UInt8) {xs : List GoString} (h : xs ≠ [])
    {ys : List GoString} (hy : ys ≠ []) :
    ∃ seg segs, xs = seg :: segs ∧
      glue ((c :: seg) :: segs) ys = (c :: (glue xs ys).headD []) :: (glue xs ys).drop 1 := by
  cases xs with
  | nil => exact absurd rfl h
  | cons seg segs =>
    refine ⟨seg, segs, rfl, ?_⟩
    cases segs with
    | nil =>
      cases ys with
      | nil => exact absurd rfl hy
      | cons y ys => simp [glue]
    | cons s2 segs => simp [glue_cons_cons]

theorem glue_ne_nil {xs : List GoString} (h : xs ≠ []) (ys : List GoString) :
    glue xs ys ≠ [] := by
  cases xs with
  | nil => exact absurd rfl h
  | cons x xs =>
    cases xs with
    | nil => cases ys <;> simp [glue]
    | cons x2 xs => simp [glue_cons_cons]

/-- Splitting a concatenation: split both parts and glue. -/
theorem strings.Split_append (a b : GoString) (sep : UInt8) :
    strings.Split (a ++ b) sep = glue (strings.Split a sep) (strings.Split b sep) := by
  induction a with
  | nil =>
    have hb := strings.Split_ne_nil b sep
    simp only [List.nil_append, strings.Split]
    cases hs : strings.Split b sep with
    | nil => exact absurd hs hb
    | cons y ys => simp [glue]
  | cons c rest ih =>
    have hr := strings.Split_ne_nil rest sep
    have hb := strings.Split_ne_nil b sep
    by_cases hc : c = sep
    · simp only [List.cons_append, strings.Split, hc, if_true, List.append_eq]
      rw [glue_cons_of_ne_nil _ hr, ← ih]
    · obtain ⟨seg, segs, hseg, hglue⟩ := glue_head_cons c hr hb
      have hg := glue_ne_nil hr (strings.Split b sep)
      simp only [List.cons_append, strings.Split, hc, if_false, List.append_eq]
      rw [ih, hseg]
      simp only []
      rw [hglue, ← hseg]
      cases hgl : glue (strings.Split rest sep) (strings.Split b sep) with
      | nil => exact absurd hgl hg
      | cons g gs => simp

theorem appendToLastContent_outEntries {xs : List GoString} (h : xs ≠ [])
    (y : GoString) (ys : List GoString) :
    appendToLastContent (outEntries xs) y ++ outEntries ys = outEntries (glue xs (y :: ys)) := by
  induction xs with
  | nil => exact absurd rfl h
  | cons x xs ih =>
    cases xs with
    | nil => simp [outEntries, appendToLastContent, glue]
    | cons x2 xs =>
      have ih2 := ih (by simp)
      rw [glue_cons_cons]
      simp only [outEntries, List.map_cons, appendToLastContent, List.cons_append] at ih2 ⊢
      rw [ih2]

theorem getLast?_outEntries {xs : List GoString} (h : xs ≠ []) :
    ∃ l, (outEntries xs).getLast? = some l ∧ l.type = str "out" := by
  induction xs with
  | nil => exact absurd rfl h
  | cons x xs ih =>
    cases xs with
    | nil => exact ⟨_, rfl, rfl⟩
    | cons x2 xs =>
      obtain ⟨l, hl, ht⟩ := ih (by simp)
      refine ⟨l, ?_, ht⟩
      simp only [outEntries, List.map_cons] at hl ⊢
      rw [List.getLast?_cons_cons]
      exact hl

/-- A write to a log that consists of `"out"` entries only. -/
theorem goPrintToConsole_outEntries {xs : List GoString} (h : xs ≠ []) (b : GoString) :
    goPrintToConsole (outEntries xs) b = outEntries (glue xs (strings.Split b newline)) := by
  obtain ⟨l, hl, ht⟩ := getLast?_outEntries h
  have hb := strings.Split_ne_nil b newline
  unfold goPrintToConsole
  simp only [hl, ht, ne_eq, not_true_eq_false, if_false]
  cases hs : strings.Split b newline with
  | nil => exact absurd hs hb
  | cons y ys =>
    simp only [List.headD_cons, List.drop_succ_cons, List.drop_zero]
    exact appendToLastContent_outEntries h y ys

/-- The first write, to the empty log. -/
theorem goPrintToConsole_nil (b : GoString) :
    goPrintToConsole [] b = outEntries (strings.Split b newline) := by
  have hb := strings.Split_ne_nil b newline
  unfold goPrintToConsole
  cases hs : strings.Split b newline with
  | nil => exact absurd hs hb
  | cons y ys =>
    simp [outEntries, appendToLastContent, str_empty]

theorem writeAll_outEntries (acc : GoString) (ws : List GoString) :
    writeAll (outEntries (strings.Split acc newline)) ws
      = outEntries (strings.Split (acc ++ ws.flatten) newline) := by
  induction ws generalizing acc with
  | nil => simp [writeAll]
  | cons w ws ih =>
    have h := ih (acc ++ w)
    simp only [writeAll, List.foldl_cons, List.flatten_cons] at h ⊢
    rw [goPrintToConsole_outEntries (strings.Split_ne_nil acc newline), ← strings.Split_append,
      h, List.append_assoc]

/-! ## Output capture: the claims -/

/-- C1: for every non-empty sequence of chunks written in order to
`goPrintToConsole` starting from the empty log, the log is exactly one
`"out"` entry per segment of the concatenation of the chunks split on
`"\n"`, in order. -/
theorem goPrintToConsole_log_eq_split (ws : List GoString) (h : ws ≠ []) :
    writeAll [] ws = outEntries (strings.Split ws.flatten newline) := by
  cases ws with
  | nil => exact absurd rfl h
  | cons w ws =>
    have h2 := writeAll_outEntries w ws
    simp only [writeAll, List.foldl_cons, List.flatten_cons] at h2 ⊢
    rw [goPrintToConsole_nil, h2]

/-- Witness for C1: the single write `"a\nb\nc"` gives the entries `"a"`,
`"b"`, `"c"`; the writes `"a"` then `"b\nc"` give the entries `"ab"`, `"c"`. -/
theorem goPrintToConsole_log_eq_split_witness :
    (writeAll [] [str "a\nb\nc"]
        = [⟨str "out", str "a"⟩, ⟨str "out", str "b"⟩, ⟨str "out", str "c"⟩])
    ∧ (writeAll [] [str "a", str "b\nc"]
        = [⟨str "out", str "ab"⟩, ⟨str "out", str "c"⟩]) :=
  ⟨(goPrintToConsole_log_eq_split [str "a\nb\nc"] (by simp)).trans (by decide),
   (goPrintToConsole_log_eq_split [str "a", str "b\nc"] (by simp)).trans (by decide)⟩

/-- C2: `goPanicHandler` yields the log followed by exactly one new entry
`{type: "err", content: "panic: " + msg}`; the length grows by one and the
entries already in the log are unchanged (nothing is merged into them). -/
theorem goPanicHandler_appends_one (L : List Line) (msg : GoString) :
    goPanicHandler L msg = L ++ [⟨str "err", str "panic: " ++ msg⟩]
    ∧ (goPanicHandler L msg).length = L.length + 1
    ∧ (goPanicHandler L msg).take L.length = L
    ∧ (goPanicHandler L msg).drop L.length = [⟨str "err", str "panic: " ++ msg⟩]
    ∧ goPanicHandler [⟨str "out", str "partial"⟩] (str "boom")
        = [⟨str "out", str "partial"⟩, ⟨str "err", str "panic: boom"⟩] := by
  refine ⟨rfl, ?_, ?_, ?_, by decide⟩
  · simp [goPanicHandler]
  · simp [goPanicHandler]
  · simp [goPanicHandler]

/-! ## The import context: lemmas -/

theorem GoMap.get?_set_self {V : Type} (m : GoMap V) (key : GoString) (v : V) :
    (GoMap.set m key v).get? key = some v := by
  induction m with
  | nil => simp [GoMap.set, GoMap.get?]
  | cons kv rest ih =>
    obtain ⟨k, w⟩ := kv
    by_cases hk : k = key
    · simp [GoMap.set, GoMap.get?, hk]
    · simp [GoMap.set, GoMap.get?, hk, ih]

theorem newImportContext.Import_hit (env : Env) (s : ImportState) (path : GoString)
    (pkg : Archive) (h : s.archives.get? path = some pkg) :
    newImportContext.Import env s path = ⟨s, [], .returned (some pkg, none)⟩ := by
  simp [newImportContext.Import, h]

theorem main.playgroundImport_hit (env : Env) (s : ImportState) (path : GoString)
    (pkg : Archive) (h : s.archives.get? path = some pkg) :
    main.Import env s path = ⟨s, [], .returned (some pkg, none)⟩ := by
  simp [main.Import, h]

/-- A call of `Import` that returns an archive leaves it in the store and
made at most one fetch. -/
theorem newImportContext.Import_returned (env : Env) (s : ImportState) (path : GoString)
    (pkg : Archive)
    (h : (newImportContext.Import env s path).outcome = .returned (some pkg, none)) :
    (newImportContext.Import env s path).state.archives.get? path = some pkg
      ∧ fetchCount (newImportContext.Import env s path).events ≤ 1 := by
  cases h0 : s.archives.get? path with
  | some a => simp_all [newImportContext.Import, fetchCount]
  | none =>
    cases h1 : env.httpGet (newImportContext.url path) with
    | error e => simp [newImportContext.Import, h0, h1] at h
    | ok resp =>
      cases h2 : resp.Body with
      | error e => simp [newImportContext.Import, h0, h1, h2] at h
      | ok respData =>
        cases h3 : env.ReadArchive (path ++ str ".a") respData with
        | error e => simp [newImportContext.Import, h0, h1, h2, h3] at h
        | ok a =>
          rcases h4 : env.RegisterTypes a s.Packages with ⟨packages, _ | e⟩
          · simp only [newImportContext.Import, h0, h1, h2, h3, h4, Outcome.returned.injEq,
              Prod.mk.injEq, Option.some.injEq, and_true] at h ⊢
            subst h
            simp [GoMap.get?_set_self, fetchCount, Event.isFetch]
          · simp [newImportContext.Import, h0, h1, h2, h3, h4] at h

theorem main.playgroundImport_returned (env : Env) (s : ImportState) (path : GoString)
    (pkg : Archive)
    (h : (main.Import env s path).outcome = .returned (some pkg, none)) :
    (main.Import env s path).state.archives.get? path = some pkg
      ∧ fetchCount (main.Import env s path).events ≤ 1 := by
  cases h0 : s.archives.get? path with
  | some a => simp_all [main.Import, fetchCount]
  | none =>
    cases h1 : env.httpGet (main.url path) with
    | error e => simp [main.Import, h0, h1] at h
    | ok resp =>
      cases h2 : resp.Body with
      | error e => simp [main.Import, h0, h1, h2] at h
      | ok respData =>
        cases h3 : env.ReadArchive (path ++ str ".a") respData with
        | error e => simp [main.Import, h0, h1, h2, h3] at h
        | ok a =>
          rcases h4 : env.RegisterTypes a s.Packages with ⟨packages, _ | e⟩
          · simp only [main.Import, h0, h1, h2, h3, h4, Outcome.returned.injEq,
              Prod.mk.injEq, Option.some.injEq, and_true] at h ⊢
            subst h
            simp [GoMap.get?_set_self, fetchCount, Event.isFetch]
          · cases h5 : env.eval (main.registerErrorScript path) <;>
              simp [main.Import, h0, h1, h2, h3, h4, h5] at h

/-- The calls of `Import` fail at the fetch and leave the state alone. -/
theorem newImportContext.Import_fetch_fails (env : Env) (s : ImportState) (path : GoString)
    (err : GoError) (hmiss : s.archives.get? path = none)
    (hfetch : FetchFails env (newImportContext.url path) err) :
    (newImportContext.Import env s path).outcome = .returned (none, some err)
      ∧ (newImportContext.Import env s path).state = s
      ∧ fetchCount (newImportContext.Import env s path).events = 1 := by
  rcases hfetch with h1 | ⟨resp, h1, h2⟩
  · simp [newImportContext.Import, hmiss, h1, fetchCount, Event.isFetch]
  · simp [newImportContext.Import, hmiss, h1, h2, fetchCount, Event.isFetch]

theorem main.playgroundImport_fetch_fails (env : Env) (s : ImportState) (path : GoString)
    (err : GoError) (hmiss : s.archives.get? path = none)
    (hfetch : FetchFails env (main.url path) err) :
    (main.Import env s path).outcome = .returned (none, some err)
      ∧ (main.Import env s path).state = s
      ∧ fetchCount (main.Import env s path).events = 1 := by
  rcases hfetch with h1 | ⟨resp, h1, h2⟩
  · simp [main.Import, hmiss, h1, fetchCount, Event.isFetch]
  · simp [main.Import, hmiss, h1, h2, fetchCount, Event.isFetch]

/-- A call of `Import` for a path that is not in the store starts with a fetch. -/
theorem newImportContext.Import_miss_fetches (env : Env) (s : ImportState) (path : GoString)
    (hmiss : s.archives.get? path = none) :
    (newImportContext.Import env s path).events.head?
      = some (.httpGet (newImportContext.url path)) := by
  cases h1 : env.httpGet (newImportContext.url path) with
  | error e => simp [newImportContext.Import, hmiss, h1]
  | ok resp =>
    cases h2 : resp.Body with
    | error e => simp [newImportContext.Import, hmiss, h1, h2]
    | ok respData =>
      cases h3 : env.ReadArchive (path ++ str ".a") respData with
      | error e => simp [newImportContext.Import, hmiss, h1, h2, h3]
      | ok a =>
        rcases h4 : env.RegisterTypes a s.Packages with ⟨packages, _ | e⟩ <;>
          simp [newImportContext.Import, hmiss, h1, h2, h3, h4]

theorem main.playgroundImport_miss_fetches (env : Env) (s : ImportState) (path : GoString)
    (hmiss : s.archives.get? path = none) :
    (main.Import env s path).events.head? = some (.httpGet (main.url path)) := by
  cases h1 : env.httpGet (main.url path) with
  | error e => simp [main.Import, hmiss, h1]
  | ok resp =>
    cases h2 : resp.Body with
    | error e => simp [main.Import, hmiss, h1, h2]
    | ok respData =>
      cases h3 : env.ReadArchive (path ++ str ".a") respData with
      | error e => simp [main.Import, hmiss, h1, h2, h3]
      | ok a =>
        rcases h4 : env.RegisterTypes a s.Packages with ⟨packages, _ | e⟩
        · simp [main.Import, hmiss, h1, h2, h3, h4]
        · cases h5 : env.eval (main.registerErrorScript path) <;>
            simp [main.Import, hmiss, h1, h2, h3, h4, h5]

/-! ## The import context: the claims -/

/-- C6: for an import path that is already in the Archive Store, `Import`
(both variants) returns the stored archive with a nil error, makes no
external call (so no fetch) and leaves the store and the type registry
unchanged. Hence two sequential calls of `Import(path)` make at most one
fetch: from a state that holds the path both calls are hits, and from any
state, when the first call returns an archive the second call is a hit that
returns the same archive. -/
theorem Import_cache_hit (env env2 : Env) (s : ImportState) (path : GoString) (pkg : Archive)
    (h : s.archives.get? path = some pkg) :
    newImportContext.Import env s path = ⟨s, [], .returned (some pkg, none)⟩
    ∧ main.Import env s path = ⟨s, [], .returned (some pkg, none)⟩
    ∧ fetchCount (newImportContext.Import env s path).events
        + fetchCount (newImportContext.Import env2
            (newImportContext.Import env s path).state path).events ≤ 1
    ∧ fetchCount (main.Import env s path).events
        + fetchCount (main.Import env2 (main.Import env s path).state path).events ≤ 1
    ∧ (∀ (s0 : ImportState) (a : Archive),
        (newImportContext.Import env s0 path).outcome = .returned (some a, none) →
        newImportContext.Import env2 (newImportContext.Import env s0 path).state path
            = ⟨(newImportContext.Import env s0 path).state, [], .returned (some a, none)⟩
          ∧ fetchCount (newImportContext.Import env s0 path).events
              + fetchCount (newImportContext.Import env2
                  (newImportContext.Import env s0 path).state path).events ≤ 1)
    ∧ (∀ (s0 : ImportState) (a : Archive),
        (main.Import env s0 path).outcome = .returned (some a, none) →
        main.Import env2 (main.Import env s0 path).state path
            = ⟨(main.Import env s0 path).state, [], .returned (some a, none)⟩
          ∧ fetchCount (main.Import env s0 path).events
              + fetchCount (main.Import env2 (main.Import env s0 path).state path).events
              ≤ 1) := by
  have e1 := newImportContext.Import_hit env s path pkg h
  have e2 := main.playgroundImport_hit env s path pkg h
  refine ⟨e1, e2, ?_, ?_, ?_, ?_⟩
  · rw [e1]
    simp only []
    rw [newImportContext.Import_hit env2 s path pkg h]
    simp [fetchCount]
  · rw [e2]
    simp only []
    rw [main.playgroundImport_hit env2 s path pkg h]
    simp [fetchCount]
  · intro s0 a h0
    obtain ⟨hst, hle⟩ := newImportContext.Import_returned env s0 path a h0
    have e3 := newImportContext.Import_hit env2 _ path a hst
    refine ⟨e3, ?_⟩
    rw [e3]
    simpa [fetchCount] using hle
  · intro s0 a h0
    obtain ⟨hst, hle⟩ := main.playgroundImport_returned env s0 path a h0
    have e3 := main.playgroundImport_hit env2 _ path a hst
    refine ⟨e3, ?_⟩
    rw [e3]
    simpa [fetchCount] using hle

/-- C8: for an import path that is not in the Archive Store, when the fetch
fails (`http.Get` fails or the body cannot be read), `Import` (both variants)
returns that error and leaves the store and the registry unchanged, so the
path is still absent and a later `Import(path)` starts with a fresh fetch
instead of returning a cached entry. -/
theorem Import_fetch_failure_not_cached (env env2 : Env) (s : ImportState) (path : GoString)
    (err : GoError) (hmiss : s.archives.get? path = none)
    (hfetch : FetchFails env (newImportContext.url path) err)
    (hfetch2 : FetchFails env (main.url path) err) :
    ((newImportContext.Import env s path).outcome = .returned (none, some err)
      ∧ (newImportContext.Import env s path).state = s
      ∧ (newImportContext.Import env s path).state.archives.get? path = none
      ∧ (newImportContext.Import env2 (newImportContext.Import env s path).state path).events.head?
          = some (.httpGet (newImportContext.url path)))
    ∧ ((main.Import env s path).outcome = .returned (none, some err)
      ∧ (main.Import env s path).state = s
      ∧ (main.Import env s path).state.archives.get? path = none
      ∧ (main.Import env2 (main.Import env s path).state path).events.head?
          = some (.httpGet (main.url path))) := by
  obtain ⟨a1, a2, _⟩ := newImportContext.Import_fetch_fails env s path err hmiss hfetch
  obtain ⟨b1, b2, _⟩ := main.playgroundImport_fetch_fails env s path err hmiss hfetch2
  refine ⟨⟨a1, a2, ?_, ?_⟩, ⟨b1, b2, ?_, ?_⟩⟩
  · rw [a2]; exact hmiss
  · rw [a2]; exact newImportContext.Import_miss_fetches env2 s path hmiss
  · rw [b2]; exact hmiss
  · rw [b2]; exact main.playgroundImport_miss_fetches env2 s path hmiss

/-- Witness for C6: the store holds `"fmt"`. -/
theorem Import_cache_hit_witness :
    newImportContext.Import offlineEnv ⟨[(str "fmt", ⟨str "fmt", str "fmt"⟩)], []⟩ (str "fmt")
      = ⟨⟨[(str "fmt", ⟨str "fmt", str "fmt"⟩)], []⟩, [],
          .returned (some ⟨str "fmt", str "fmt"⟩, none)⟩ :=
  (Import_cache_hit offlineEnv offlineEnv ⟨[(str "fmt", ⟨str "fmt", str "fmt"⟩)], []⟩
    (str "fmt") ⟨str "fmt", str "fmt"⟩ (by decide)).1

/-- Witness for C8: the path `"foo/bar"`, the empty store, the network down. -/
theorem Import_fetch_failure_not_cached_witness :
    (newImportContext.Import offlineEnv ⟨[], []⟩ (str "foo/bar")).outcome
        = .returned (none, some (.other (str "net/http: fetch() failed")))
    ∧ (newImportContext.Import offlineEnv ⟨[], []⟩ (str "foo/bar")).state = ⟨[], []⟩
    ∧ (main.Import offlineEnv ⟨[], []⟩ (str "foo/bar")).outcome
        = .returned (none, some (.other (str "net/http: fetch() failed")))
    ∧ (main.Import offlineEnv ⟨[], []⟩ (str "foo/bar")).state = ⟨[], []⟩ :=
  have h := Import_fetch_failure_not_cached offlineEnv sampleEnv ⟨[], []⟩ (str "foo/bar")
    (.other (str "net/http: fetch() failed")) (by decide) (Or.inl rfl) (Or.inl rfl)
  ⟨h.1.1, h.1.2.1, h.2.1, h.2.2.1⟩

/-- C7 (what the code does): when the fetch and `ReadArchive` succeed and
`RegisterTypes` fails, `Import` has already stored the archive: it returns
the registration error (the playground variant may instead panic in its
`console.error` script), the Archive Store holds the path, and the next
`Import(path)` returns the unregistered archive with a nil error. -/
theorem Import_registration_failure_keeps_archive (env env2 : Env) (s : ImportState)
    (path : GoString) (resp : Response) (respData : GoString) (pkg : Archive)
    (packages : GoMap (Option TypesPackage)) (err : GoError)
    (hmiss : s.archives.get? path = none)
    (h1 : env.httpGet (newImportContext.url path) = .ok resp)
    (h1m : env.httpGet (main.url path) = .ok resp)
    (h2 : resp.Body = .ok respData)
    (h3 : env.ReadArchive (path ++ str ".a") respData = .ok pkg)
    (h4 : env.RegisterTypes pkg s.Packages = (packages, some err)) :
    ((newImportContext.Import env s path).outcome = .returned (none, some err)
      ∧ (newImportContext.Import env s path).state = ⟨GoMap.set s.archives path pkg, packages⟩
      ∧ (newImportContext.Import env s path).state.archives.get? path = some pkg
      ∧ newImportContext.Import env2 (newImportContext.Import env s path).state path
          = ⟨⟨GoMap.set s.archives path pkg, packages⟩, [], .returned (some pkg, none)⟩)
    ∧ (((main.Import env s path).outcome = .returned (none, some err)
          ∨ ∃ p, (main.Import env s path).outcome = .panicked p)
      ∧ (main.Import env s path).state = ⟨GoMap.set s.archives path pkg, packages⟩
      ∧ (main.Import env s path).state.archives.get? path = some pkg
      ∧ main.Import env2 (main.Import env s path).state path
          = ⟨⟨GoMap.set s.archives path pkg, packages⟩, [], .returned (some pkg, none)⟩) := by
  have hst : (newImportContext.Import env s path).state
      = ⟨GoMap.set s.archives path pkg, packages⟩ := by
    simp [newImportContext.Import, hmiss, h1, h2, h3, h4]
  have hstm : (main.Import env s path).state = ⟨GoMap.set s.archives path pkg, packages⟩ := by
    cases h5 : env.eval (main.registerErrorScript path) <;>
      simp [main.Import, hmiss, h1m, h2, h3, h4, h5]
  have hget : (⟨GoMap.set s.archives path pkg, packages⟩ : ImportState).archives.get? path
      = some pkg := GoMap.get?_set_self _ _ _
  refine ⟨⟨?_, hst, ?_, ?_⟩, ⟨?_, hstm, ?_, ?_⟩⟩
  · simp [newImportContext.Import, hmiss, h1, h2, h3, h4]
  · rw [hst]; exact hget
  · rw [hst]; exact newImportContext.Import_hit env2 _ path pkg hget
  · cases h5 : env.eval (main.registerErrorScript path) <;>
      simp [main.Import, hmiss, h1m, h2, h3, h4, h5]
  · rw [hstm]; exact hget
  · rw [hstm]; exact main.playgroundImport_hit env2 _ path pkg hget

/-- Witness for C7: `Import("foo/bar")` on the empty context when the export
data of the archive is bad: the call fails, the Archive Store holds
`"foo/bar"` and the type registry holds a nil package for it. -/
theorem Import_registration_failure_keeps_archive_witness :
    (newImportContext.Import badExportDataEnv ⟨[], []⟩ (str "foo/bar")).outcome
        = .returned (none, some (.other (str "unexpected export data")))
    ∧ (newImportContext.Import badExportDataEnv ⟨[], []⟩ (str "foo/bar")).state.archives.get?
        (str "foo/bar") = some ⟨str "foo/bar", str "bar"⟩
    ∧ (newImportContext.Import badExportDataEnv ⟨[], []⟩ (str "foo/bar")).state.Packages.get?
        (str "foo/bar") = some none :=
  have h := Import_registration_failure_keeps_archive badExportDataEnv badExportDataEnv ⟨[], []⟩
    (str "foo/bar") ⟨.ok (str "archive bytes")⟩ (str "archive bytes")
    ⟨str "foo/bar", str "bar"⟩ [(str "foo/bar", none)] (.other (str "unexpected export data"))
    (by decide) rfl rfl rfl rfl rfl
  ⟨h.1.1, h.1.2.2.1, by decide⟩

/-! ## The compile/run pipeline: the claims -/

/-- When the script of line 98 evaluates without raising, a parse that fails
with a `scanner.ErrorList` makes `runCode` return one `"err"` entry per
error, in the order of the list, after the parser as its last pipeline step. -/
theorem runCode_parse_errors (env : Env) (code escaped : GoString) (file : Option File)
    (list : List GoString)
    (hm : env.jsonMarshal code = (escaped, none))
    (hlog : env.eval (runCode.logScript escaped) = none)
    (hparse : env.ParseFile code = (file, some (.scannerErrorList list))) :
    runCode env [code]
      = ⟨[.eval (runCode.logScript escaped), .parseFile code,
            .consoleError (str "error parsing package: main")],
          .returned (.lines (errLines list))⟩
    ∧ (errLines list).length = list.length
    ∧ (runCode env [code]).events.all (fun ev => !ev.isPipelineStep) = true := by
  have h : runCode env [code]
      = ⟨[.eval (runCode.logScript escaped), .parseFile code,
            .consoleError (str "error parsing package: main")],
          .returned (.lines (errLines list))⟩ := by
    simp [runCode, hm, hlog, hparse]
  refine ⟨h, by simp [errLines], ?_⟩
  rw [h]
  simp [Event.isPipelineStep]

/-- C3 (what the code does): `runCode` evaluates the script
`console.log('code: <escaped>')` before it parses; when that evaluation
raises, `runCode` panics there and returns no diagnostic entries, whatever
the parser would report. -/
theorem runCode_log_script_raises (env : Env) (code escaped : GoString) (p : PanicValue)
    (hm : env.jsonMarshal code = (escaped, none))
    (hlog : env.eval (runCode.logScript escaped) = some p) :
    runCode env [code] = ⟨[.eval (runCode.logScript escaped)], .panicked p⟩ := by
  simp [runCode, hm, hlog]

/-- Witness for C3: the source text `'`, whose parse fails with one syntax
error: `runCode` panics with the JavaScript error of the logging script. -/
theorem runCode_log_script_raises_witness :
    quoteEnv.ParseFile (str "'")
        = (some ⟨str ""⟩, some (.scannerErrorList [str "prog.go:1:1: rune literal not terminated"]))
    ∧ runCode quoteEnv [str "'"]
        = ⟨[.eval (str "console.log('code: \"'\"')")],
            .panicked (.jsError ⟨str "Invalid or unexpected token"⟩)⟩ :=
  ⟨rfl, (runCode_log_script_raises quoteEnv (str "'") (str "\"'\"")
    (.jsError ⟨str "Invalid or unexpected token"⟩) rfl (by decide)).trans (by decide)⟩

/-- C4 (what the code does): when the source parses and the compiler fails
with a `compiler.ErrorList` and returns no package, `runCode` panics with a
nil pointer dereference at `mainPkg.Name` (line 121) and returns nothing. -/
theorem runCode_compile_errors_nil_package (env : Env) (code escaped : GoString)
    (file : Option File) (list : List GoString)
    (hm : env.jsonMarshal code = (escaped, none))
    (hlog : env.eval (runCode.logScript escaped) = none)
    (hparse : env.ParseFile code = (file, none))
    (hcompile : env.Compile file = (none, some (.compilerErrorList list))) :
    runCode env [code]
      = ⟨[.eval (runCode.logScript escaped), .parseFile code, .compile file],
          .panicked nilDereference⟩ := by
  simp [runCode, hm, hlog, hparse, hcompile]

/-- Witness for C4: a program with one type error. -/
theorem runCode_compile_errors_nil_package_witness :
    (runCode typeErrorEnv [str "package main\nfunc main() \x7b x \x7d"]).outcome
      = .panicked nilDereference :=
  congrArg RunResult.outcome
    (runCode_compile_errors_nil_package typeErrorEnv (str "package main\nfunc main() \x7b x \x7d")
      (str "\"package main\nfunc main() \x7b x \x7d\"") (some ⟨str "main"⟩)
      [str "prog.go:2:15: undeclared name: x"] rfl rfl rfl rfl)

/-- C5 (what the code does): when the source parses and compiles and
`ImportDependencies` returns the package list `pkgs` with an error `derr`,
both pipelines discard `derr` and go on to the code generation on `pkgs`:
`runCode` calls `WriteProgramCode(pkgs)` and ends as that call and the
evaluation end (a panic, or the generated code returned), never with a list
of diagnostic entries; `Playground.Compile` calls `WriteProgramCode(pkgs)`
and never calls the callback with an error. -/
theorem pipeline_drops_dependency_error (env : Env) (code escaped : GoString)
    (file : Option File) (mainPkg : Option Archive) (pkgs : List Archive) (derr : GoError)
    (hm : env.jsonMarshal code = (escaped, none))
    (hlog : env.eval (runCode.logScript escaped) = none)
    (hparse : env.ParseFile code = (file, none))
    (hcompile : env.Compile file = (mainPkg, none))
    (hdeps : env.ImportDependencies mainPkg = .returned (pkgs, some derr)) :
    (∃ rest, (runCode env [code]).events
        = [.eval (runCode.logScript escaped), .parseFile code, .compile file,
            .importDependencies mainPkg, .writeProgramCode pkgs] ++ rest)
    ∧ (runCode env [code]).outcome
        = (match env.WriteProgramCode pkgs env.runtimeVersion with
          | .panicked p => .panicked p
          | .returned written =>
            match env.eval (runCode.jsCode written) with
            | some p => .panicked p
            | none => .returned (.string (runCode.jsCode written)))
    ∧ (∀ entries, (runCode env [code]).outcome ≠ .returned (.lines entries))
    ∧ Playground.Compile env code
        = (match env.WriteProgramCode pkgs env.runtimeVersion with
          | .panicked p =>
            ⟨[.parseFile code, .compile file, .importDependencies mainPkg,
                .writeProgramCode pkgs], .panicked p⟩
          | .returned written =>
            ⟨[.parseFile code, .compile file, .importDependencies mainPkg,
                .writeProgramCode pkgs, .callback none written], .returned ()⟩)
    ∧ (∀ e c, Event.callback (some e) c ∉ (Playground.Compile env code).events) := by
  cases hw : env.WriteProgramCode pkgs env.runtimeVersion with
  | panicked p =>
    simp [runCode, runCode.generate, Playground.Compile, Playground.Compile.generate,
      callbackIfError, hm, hlog, hparse, hcompile, hdeps, hw]
  | returned written =>
    cases he : env.eval (runCode.jsCode written) <;>
      simp [runCode, runCode.generate, Playground.Compile, Playground.Compile.generate,
        callbackIfError, hm, hlog, hparse, hcompile, hdeps, hw, he]

/-- Witness for C5: the program `package main; func main() {}` when the
archive of the package `"runtime"` cannot be fetched: `runCode` panics in
the code generation, and the goroutine of `Playground.Compile` panics
without a call of the callback. -/
theorem pipeline_drops_dependency_error_witness :
    (runCode missingDependencyEnv [str "package main; func main() \x7b\x7d"]).outcome
        = .panicked indexOutOfRange
    ∧ Playground.Compile missingDependencyEnv (str "package main; func main() \x7b\x7d")
        = ⟨[.parseFile (str "package main; func main() \x7b\x7d"),
              .compile (some ⟨str "main"⟩),
              .importDependencies (some ⟨str "main", str "main"⟩),
              .writeProgramCode []],
            .panicked indexOutOfRange⟩ :=
  have h := pipeline_drops_dependency_error missingDependencyEnv
    (str "package main; func main() \x7b\x7d")
    (str "\"" ++ str "package main; func main() \x7b\x7d" ++ str "\"")
    (some ⟨str "main"⟩) (some ⟨str "main", str "main"⟩) []
    (.other (str "runtime: net/http: fetch() failed")) rfl rfl rfl rfl rfl
  ⟨h.2.1, h.2.2.2.1⟩

/-- `Run` returns nil when the evaluation raises nothing, and wraps a panic
that is not a JavaScript error. -/
theorem Playground.Run_other (env : Env) (compiled : GoString) :
    (env.eval compiled = none → Playground.Run env compiled = none)
    ∧ (∀ text, env.eval compiled = some (.runtimeError text) →
        Playground.Run env compiled
          = some (.other (str "compiled code paniced: " ++ fmtV (.runtimeError text))))
    ∧ (∀ printed, env.eval compiled = some (.value printed) →
        Playground.Run env compiled
          = some (.other (str "compiled code paniced: " ++ printed))) := by
  refine ⟨?_, ?_, ?_⟩
  · intro h; simp [Playground.Run, h]
  · intro text h
    simp [Playground.Run, h, Playground.Run.deferred, assignReturnedError]
  · intro printed h
    simp [Playground.Run, h, Playground.Run.deferred, assignReturnedError, fmtV]

/-- C9 (what the code does): when the evaluation raises a JavaScript error
`err`, `Run` does not return `err` itself: line 112 runs after line 108 and
`Run` returns the wrapped error `"compiled code paniced: JavaScript error:
<message>"`. -/
theorem Playground.Run_wraps_js_error (env : Env) (compiled : GoString) (err : JSError)
    (h : env.eval compiled = some (.jsError err)) :
    Playground.Run env compiled
      = some (.other (str "compiled code paniced: " ++ (str "JavaScript error: " ++ err.message)))
    ∧ Playground.Run env compiled ≠ some (.jsError err) := by
  have h2 : Playground.Run env compiled
      = some (.other (str "compiled code paniced: " ++ (str "JavaScript error: " ++ err.message))) := by
    simp [Playground.Run, h, Playground.Run.deferred, assignReturnedError, fmtV, JSError.Error]
  refine ⟨h2, ?_⟩
  rw [h2]
  simp

/-- Witness for C9: the compiled code `throw new Error("boom")`. -/
theorem Playground.Run_wraps_js_error_witness :
    Playground.Run throwingEnv (str "throw new Error(\"boom\")")
      = some (.other (str "compiled code paniced: JavaScript error: boom")) :=
  (Playground.Run_wraps_js_error throwingEnv (str "throw new Error(\"boom\")") ⟨str "boom"⟩
    rfl).1.trans (by decide)

/-- When the source parses and compiles and the dependencies and the code
generation return, `Playground.Compile` calls the callback once, with
`(nil, code)`. -/
theorem Playground.Compile_ok (env : Env) (code : GoString) (file : Option File)
    (mainPkg : Option Archive) (pkgs : List Archive) (derr : Option GoError)
    (jsCode : GoString)
    (hparse : env.ParseFile code = (file, none))
    (hcompile : env.Compile file = (mainPkg, none))
    (hdeps : env.ImportDependencies mainPkg = .returned (pkgs, derr))
    (hwrite : env.WriteProgramCode pkgs env.runtimeVersion = .returned jsCode) :
    Playground.Compile env code
      = ⟨[.parseFile code, .compile file, .importDependencies mainPkg,
            .writeProgramCode pkgs, .callback none jsCode], .returned ()⟩
    ∧ callbackCount (Playground.Compile env code).events = 1 := by
  have h : Playground.Compile env code
      = ⟨[.parseFile code, .compile file, .importDependencies mainPkg,
            .writeProgramCode pkgs, .callback none jsCode], .returned ()⟩ := by
    simp [Playground.Compile, Playground.Compile.generate, hparse, hcompile, hdeps, hwrite,
      callbackIfError]
  refine ⟨h, ?_⟩
  rw [h]
  simp [callbackCount, List.countP_cons]

/-- The code generation of `Playground.Compile` starts with the call of
`ImportDependencies`, and when it returns it ended with `callback(nil, code)`. -/
theorem Playground.Compile.generate_events (env : Env) (mainPkg : Option Archive) :
    (∃ rest, (Playground.Compile.generate env mainPkg).events
        = .importDependencies mainPkg :: rest)
    ∧ ((Playground.Compile.generate env mainPkg).outcome = .returned () →
        ∃ middle jsCode, (Playground.Compile.generate env mainPkg).events
          = middle ++ [.callback none jsCode]) := by
  cases hd : env.ImportDependencies mainPkg with
  | panicked p => simp [Playground.Compile.generate, hd]
  | returned r =>
    obtain ⟨allPkgs, derr⟩ := r
    cases hw : env.WriteProgramCode allPkgs env.runtimeVersion with
    | panicked p => simp [Playground.Compile.generate, hd, hw]
    | returned jsCode =>
      refine ⟨⟨[.writeProgramCode allPkgs, .callback none jsCode], ?_⟩,
        fun _ => ⟨[.importDependencies mainPkg, .writeProgramCode allPkgs], jsCode, ?_⟩⟩
      · simp [Playground.Compile.generate, hd, hw]
      · simp [Playground.Compile.generate, hd, hw]

/-- C10 (what the code does): after a parse error `Playground.Compile` calls
`callback(err, "")` and does not return: it goes on to call the compiler
and then `ImportDependencies`; and when the goroutine runs to its end it has
called the callback at least twice, the last time with `(nil, code)`. -/
theorem Playground.Compile_continues_after_parse_error (env : Env) (code : GoString)
    (file : Option File) (err : GoError)
    (hparse : env.ParseFile code = (file, some err)) :
    (∃ rest, (Playground.Compile env code).events
        = [.parseFile code, .callback (some err) (str ""), .compile file]
          ++ callbackIfError (env.Compile file).2
          ++ .importDependencies (env.Compile file).1 :: rest)
    ∧ ((Playground.Compile env code).outcome = .returned () →
        2 ≤ callbackCount (Playground.Compile env code).events
        ∧ ∃ jsCode, (Playground.Compile env code).events.getLast?
            = some (.callback none jsCode)) := by
  obtain ⟨⟨rest, hrest⟩, hend⟩ := Playground.Compile.generate_events env (env.Compile file).1
  have hev : (Playground.Compile env code).events
      = [.parseFile code, .callback (some err) (str ""), .compile file]
        ++ callbackIfError (env.Compile file).2
        ++ (Playground.Compile.generate env (env.Compile file).1).events := by
    simp [Playground.Compile, hparse, callbackIfError]
  have hout : (Playground.Compile env code).outcome
      = (Playground.Compile.generate env (env.Compile file).1).outcome := by
    simp [Playground.Compile, hparse]
  refine ⟨⟨rest, by rw [hev, hrest]⟩, ?_⟩
  intro h
  obtain ⟨middle, jsCode, hmid⟩ := hend (hout ▸ h)
  rw [hev, hmid]
  refine ⟨?_, jsCode, ?_⟩
  · simp [callbackCount, List.countP_cons, List.countP_append]
    omega
  · have hlast : ∀ (xs : List Event) (e : Event), (xs ++ [e]).getLast? = some e := by
      intro xs e
      simp
    rw [← List.append_assoc]
    exact hlast _ _

/-- Witness for C10: the source text `x`, which does not parse, when every
later step succeeds: the callback gets the error and then the code. -/
theorem Playground.Compile_continues_after_parse_error_witness :
    2 ≤ callbackCount (Playground.Compile parseErrorEnv (str "x")).events
    ∧ Playground.Compile parseErrorEnv (str "x")
      = ⟨[.parseFile (str "x"),
            .callback (some (.scannerErrorList [str "prog.go:1:1: expected 'package', found x"]))
              (str ""),
            .compile (some ⟨str ""⟩),
            .importDependencies (some ⟨str "main", str "main"⟩),
            .writeProgramCode [⟨str "runtime", str "runtime"⟩, ⟨str "main", str "main"⟩],
            .callback none (str "$packages = \x7b\x7d;")],
          .returned ()⟩ :=
  ⟨((Playground.Compile_continues_after_parse_error parseErrorEnv (str "x") (some ⟨str ""⟩)
      (.scannerErrorList [str "prog.go:1:1: expected 'package', found x"]) rfl).2 rfl).1,
    by decide⟩

end GopherJSRuntime
